import Mathlib

/-!
Verification of the transaction-compaction adapter (`src/pg-adapter.ts`).

The adapter buffers statements submitted on a transaction-scoped connection,
classifies each statement's role, suppresses `BEGIN`/context-marker/`COMMIT`
round trips when the transaction matches the canonical single-write shape, and
otherwise materializes the real transaction by replaying the buffered
statements before continuing.

The statement classifiers, the context codec and `EMPTY_RESULT` live in the
helper module `pg-utils`, which is not part of the sources; those definitions
are modelled from the spec (§4.1, §4.2, and the data model section) and are
marked as such.  Everything in `compactPerformIOResult`, `performIO`,
`commit`, `rollback` and `transactionContext` is translated from the source.
-/

/-- Context payloads (spec §3): string-keyed string maps.  Modelled from the
spec: payloads are JavaScript objects, represented as association lists in
insertion order; lookup returns the first binding of a key. -/
abbrev Payload := List (String × String)

/-- First binding of key `k` in a payload — JavaScript property read. -/
def lookupKey (k : String) : Payload → Option String
  | [] => none
  | (k', v) :: rest => if k' = k then some v else lookupKey k rest

/-- JavaScript property assignment on an object represented as an association
list: overwrite the existing binding in place, or append a new one. -/
def setKey (p : Payload) (kv : String × String) : Payload :=
  match p with
  | [] => [kv]
  | (k', v) :: rest => if k' = kv.1 then (k', kv.2) :: rest else (k', v) :: setKey rest kv

/-- The reserved payload key holding the SQL text (spec §3: the merge written
in the source is literally the object `\x7b SQL: sql, ...decoded \x7d`). -/
def reservedKey : String := "SQL"

/-- The object expression `\x7b SQL: sql, ...decoded \x7d` from the source
(line 149): start from a one-entry object holding the statement's text under
the reserved key, then spread the decoded prior context over it — JavaScript
spread semantics make a later binding of `SQL` in `decoded` overwrite the
first entry. -/
def jsSpreadMerge (sqlText : String) (decoded : Payload) : Payload :=
  decoded.foldl setKey [(reservedKey, sqlText)]

/-- Rendering of a payload into comment text; used only to produce the string
stored under the reserved key when a rewritten statement is itself rendered. -/
def encodePayload (p : Payload) : String :=
  "/*Bemi " ++ String.intercalate ", " (p.map (fun kv => kv.1 ++ "=" ++ kv.2)) ++ " Bemi*/"

/-- SQL text.  Modelled from the spec: the Context Codec (§4.2) is specified
only by its interface and round-trip law (`decode(encode(p)) == p`), and its
implementation is in the absent helper module; we therefore represent SQL text
algebraically, distinguishing plain text, a standalone context-marker comment,
and text carrying a trailing encoded context comment, so that the codec
satisfies the round-trip law by construction. -/
inductive SqlText where
  /-- Ordinary SQL text. -/
  | plain (s : String)
  /-- A context-marker statement: a lone comment encoding a payload. -/
  | comment (p : Payload)
  /-- SQL text followed by a trailing encoded context comment (the result of
  the source's string interpolation appending a comment to a statement). -/
  | withComment (base : SqlText) (p : Payload)
deriving DecidableEq, Repr

/-- String rendering of SQL text. -/
def SqlText.render : SqlText → String
  | .plain s => s
  | .comment p => encodePayload p
  | .withComment base p => base.render ++ " " ++ encodePayload p

/-- Modelled from the spec (§4.2 `encode`): serializes a payload into a
trailing SQL comment; appending it to a statement yields `withComment`. -/
def contextToSqlComment (p : Payload) : SqlText :=
  SqlText.comment p

/-- Modelled from the spec (§4.2 `decode`): recovers the payload carried by a
context comment.  Only ever applied by the adapter to statements that
classified as context markers. -/
def sqlCommentToContext : SqlText → Payload
  | .plain _ => []
  | .comment p => p
  | .withComment _ p => p

/-- Modelled from the spec (§4.1 `isContextMarker`): true exactly when the
text is a recognized standalone metadata-carrying comment. -/
def isContextComment : SqlText → Bool
  | .comment _ => true
  | _ => false

/-- Leading-keyword normalization (spec §4.1: case-insensitive,
whitespace-tolerant matching against the statement's leading keyword). -/
def normalizeSql (s : String) : List Char :=
  (s.data.dropWhile (fun c => c = ' ' || c = '\n' || c = '\t' || c = '\r')).map Char.toUpper

/-- Does the normalized text start with the given (uppercase) keyword? -/
def startsWithKeyword (kw : String) (s : String) : Bool :=
  kw.data.isPrefixOf (normalizeSql s)

/-- Modelled from the spec (§4.1 `isBeginStatement`). -/
def isBeginQuery : SqlText → Bool
  | .plain s => startsWithKeyword "BEGIN" s
  | .comment _ => false
  | .withComment base _ => isBeginQuery base

/-- Modelled from the spec (§4.1 `isCommitStatement`). -/
def isCommitQuery : SqlText → Bool
  | .plain s => startsWithKeyword "COMMIT" s
  | .comment _ => false
  | .withComment base _ => isCommitQuery base

/-- Modelled from the spec (§4.1 `isWriteStatement`: statements whose leading
keyword denotes data modification). -/
def isWriteQuery : SqlText → Bool
  | .plain s =>
      startsWithKeyword "INSERT" s || startsWithKeyword "UPDATE" s ||
        startsWithKeyword "DELETE" s
  | .comment _ => false
  | .withComment base _ => isWriteQuery base

/-- A database-reported failure thrown by the driver: carries string `code`,
`severity` and `message` fields (the shape test of `performIO`'s catch). -/
structure PgError where
  code : String
  severity : String
  message : String
  detail : Option String := none
  column : Option String := none
  hint : Option String := none
deriving DecidableEq, Repr

/-- Rows-and-count result of a physical query. -/
structure QueryResult where
  rowCount : Option Nat := none
  rows : List (List String) := []
  fields : List String := []
deriving DecidableEq, Repr

/-- Modelled from the spec: the empty result returned for suppressed
statements (pg-utils `EMPTY_RESULT`). -/
def EMPTY_RESULT : QueryResult := {}

/-- The structured database error built by `performIO`'s catch clause
(lines 115–123): kind `Postgres` with code, severity, message, detail,
column, hint. -/
inductive DriverError where
  | postgres (code severity message : String)
      (detail column hint : Option String)
deriving DecidableEq, Repr

/-- A JavaScript exception crossing `compactPerformIOResult`: either a
database-shaped error (string code/severity/message) or any other thrown
value. -/
inductive Thrown where
  | db (e : PgError)
  | other (msg : String)
deriving DecidableEq, Repr

/-- A submitted query: SQL text plus bind parameters. -/
structure Query where
  sql : SqlText
  args : List String := []
deriving DecidableEq, Repr

/-- Outcome of one call on the physical connection. -/
inductive ConnOutcome where
  | success (r : QueryResult)
  | throwDb (e : PgError)
  | throwOther (msg : String)
deriving DecidableEq, Repr

/-- The physical connection, modelled as an oracle from the text and
parameters sent to the outcome of that call. -/
abbrev Conn := SqlText → List String → ConnOutcome

/-- The sequence of `client.query` calls actually issued to the physical
connection: pairs of final text and parameters. -/
abbrev Trace := List (SqlText × List String)

/-- Mutable transaction bookkeeping attached to a transaction client
(`previousQueries`, `readyToExecuteTransaction`). -/
structure TxState where
  previousQueries : List Query
  readyToExecuteTransaction : Bool
deriving DecidableEq, Repr

/-- A client handle: `tx = none` models the standard (non-transaction) client,
whose `previousQueries` is undefined; `releaseCount` counts `release()`
calls. -/
structure Client where
  tx : Option TxState
  releaseCount : Nat := 0
deriving DecidableEq, Repr

/-- One `client.query` call: records the call in the trace and reflects the
oracle's outcome.  Parameter conversion (`fixArrayBufferValues`) is the
out-of-scope conversion layer (spec §1) and is modelled as the identity. -/
def execQuery (conn : Conn) (text : SqlText) (values : List String) :
    Except Thrown QueryResult × Trace :=
  match conn text values with
  | .success r => (Except.ok r, [(text, values)])
  | .throwDb e => (Except.error (Thrown.db e), [(text, values)])
  | .throwOther m => (Except.error (Thrown.other m), [(text, values)])

/-- The driver-level result type of `performIO`: `ok` a query result or `err`
a structured database error. -/
abbrev DriverResult := Except DriverError QueryResult

/-- The try/catch of `performIO` (lines 104–126): a database-shaped exception
is mapped to a structured `Postgres` error value; any other exception is
rethrown unchanged. -/
def wrapIo : Except Thrown QueryResult × Option TxState × Trace →
    Except String DriverResult × Option TxState × Trace
  | (Except.ok r, τ, tr) => (Except.ok (Except.ok r), τ, tr)
  | (Except.error (Thrown.db e), τ, tr) =>
      (Except.ok (Except.error
        (DriverError.postgres e.code e.severity e.message e.detail e.column e.hint)), τ, tr)
  | (Except.error (Thrown.other m), τ, tr) => (Except.error m, τ, tr)

/-- The replay loop of lines 170–172: each buffered statement is resubmitted
through the step function; a returned `err` result is discarded and the loop
continues, while a thrown exception aborts the loop and propagates. -/
def runReplays
    (step : Query → Option TxState → Except String DriverResult × Option TxState × Trace) :
    List Query → Option TxState → Except String Unit × Option TxState × Trace
  | [], τ => (Except.ok (), τ, [])
  | q :: rest, τ =>
      match step q τ with
      | (Except.error m, τ', tr) => (Except.error m, τ', tr)
      | (Except.ok _, τ', tr) =>
          match runReplays step rest τ' with
          | (o, τ'', tr') => (o, τ'', tr ++ tr')

/-- The context-comment rewrite of lines 146–150: if the log holds a context
marker (the source's `previousQueries.find`) and the statement is a write,
append the comment encoding the spread-merge of the reserved key and the
decoded prior context. -/
def rewrittenText (log : List Query) (t : SqlText) : SqlText :=
  match (log.find? (fun p => isContextComment p.sql)).map Query.sql with
  | some m =>
      if isWriteQuery t then
        SqlText.withComment t (jsSpreadMerge t.render (sqlCommentToContext m))
      else t
  | none => t

/-- Translation of `compactPerformIOResult` (lines 130–216), threading the
transaction bookkeeping the function reads and writes on the client
(`previousQueries`, `readyToExecuteTransaction`; `none` models the standard
client, whose `previousQueries` is undefined).  The replay recursion carries
an explicit fuel bound (the source recurses through `performIO`; spec §9
notes log length strictly bounds replay depth).  Logging statements
(lines 138–140, 181–183) have no semantic effect and are elided. -/
def compactPerformIOResult (conn : Conn) :
    Nat → Query → Bool → Option TxState → Except Thrown QueryResult × Option TxState × Trace
  | 0, _, _, τ => (Except.error (Thrown.other "out of fuel"), τ, [])
  | fuel + 1, q, catchingUp, τ =>
    match τ with
    | none =>
        match execQuery conn q.sql q.args with
        | (r, tr) => (r, none, tr)
    | some ts₀ =>
      let isContext := isContextComment q.sql
      let isWrite := isWriteQuery q.sql
      let previousContextComment :=
        (ts₀.previousQueries.find? (fun p => isContextComment p.sql)).map Query.sql
      let text : SqlText := rewrittenText ts₀.previousQueries q.sql
      let ts₁ :=
        if catchingUp then ts₀
        else { ts₀ with previousQueries := ts₀.previousQueries ++ [q] }
      let finish : Option TxState → Trace → Except Thrown QueryResult × Option TxState × Trace :=
        fun τ' tr =>
          if isContext then (Except.ok EMPTY_RESULT, τ', tr)
          else
            match execQuery conn text q.args with
            | (r, tr') => (r, τ', tr ++ tr')
      if ts₁.readyToExecuteTransaction then
        finish (some ts₁) []
      else if isBeginQuery q.sql && (ts₁.previousQueries.length == 1) then
        (Except.ok EMPTY_RESULT, some ts₁, [])
      else if isCommitQuery q.sql && previousContextComment.isSome &&
          (ts₁.previousQueries.length == 4) then
        (Except.ok EMPTY_RESULT, some ts₁, [])
      else if (ts₁.previousQueries.length == 2 && !isContext) ||
          (ts₁.previousQueries.length == 3 && !isWrite) then
        match runReplays
            (fun p τ' => wrapIo (compactPerformIOResult conn fuel p true τ'))
            ts₁.previousQueries.dropLast
            (some { ts₁ with readyToExecuteTransaction := true }) with
        | (Except.error m, τ', tr) => (Except.error (Thrown.other m), τ', tr)
        | (Except.ok _, τ', tr) => finish τ' tr
      else
        finish (some ts₁) []

/-- `performIO` at the level of the threaded transaction bookkeeping. -/
def performIoTx (conn : Conn) (fuel : Nat) (q : Query) (catchingUp : Bool)
    (τ : Option TxState) : Except String DriverResult × Option TxState × Trace :=
  wrapIo (compactPerformIOResult conn fuel q catchingUp τ)

/-- Translation of `performIO` (lines 101–127): run the compaction algorithm
on the client's transaction bookkeeping and apply the catch clause. -/
def performIo (conn : Conn) (fuel : Nat) (q : Query) (catchingUp : Bool) (cl : Client) :
    Except String DriverResult × Client × Trace :=
  ((performIoTx conn fuel q catchingUp cl.tx).1,
   { cl with tx := (performIoTx conn fuel q catchingUp cl.tx).2.1 },
   (performIoTx conn fuel q catchingUp cl.tx).2.2)

/-- `client.release()`: the pool hands the connection back; the adapter keeps
no record beyond the call itself, modelled by a counter. -/
def releaseClient (cl : Client) : Client :=
  { cl with releaseCount := cl.releaseCount + 1 }

/-- Translation of `PgTransaction.commit` (lines 227–232): release the client
and return `ok(undefined)`; no statement is sent, so the trace is empty. -/
def PgTransaction.commit (cl : Client) : Except DriverError Unit × Client × Trace :=
  (Except.ok (), releaseClient cl, [])

/-- Translation of `PgTransaction.rollback` (lines 234–239): identical to
`commit`. -/
def PgTransaction.rollback (cl : Client) : Except DriverError Unit × Client × Trace :=
  (Except.ok (), releaseClient cl, [])

/-- Translation of `PrismaPg.transactionContext` (lines 298–307): a fresh
transaction client with an empty log and `readyToExecuteTransaction = false`. -/
def transactionContextClient : Client :=
  { tx := some { previousQueries := [], readyToExecuteTransaction := false }, releaseCount := 0 }

/-- Run a sequence of submissions (all with `catchingUp = false`, as from
`queryRaw`/`executeRaw`) on one session, collecting each submission's result
and the concatenated physical trace. -/
def runSession (conn : Conn) (fuel : Nat) :
    List Query → Client → List (Except String DriverResult) × Client × Trace
  | [], cl => ([], cl, [])
  | q :: rest, cl =>
      match performIo conn fuel q false cl with
      | (r, cl', tr) =>
          match runSession conn fuel rest cl' with
          | (rs, cl'', tr') => (r :: rs, cl'', tr ++ tr')

/-- A physical connection that answers every call with a one-row success. -/
def connOk : Conn := fun _ _ => ConnOutcome.success { rowCount := some 1 }

/-- A physical connection that fails every call with a database-shaped error. -/
def connDbFail (e : PgError) : Conn := fun _ _ => ConnOutcome.throwDb e

/-- A physical connection that fails every call with a non-database-shaped
exception. -/
def connCrash (m : String) : Conn := fun _ _ => ConnOutcome.throwOther m

/-- A connection that fails exactly the `BEGIN` statement with a
database-shaped error and answers everything else with success. -/
def connBeginDbFail : Conn := fun t _ =>
  if t = SqlText.plain "BEGIN" then
    ConnOutcome.throwDb { code := "57P01", severity := "FATAL", message := "terminating connection" }
  else ConnOutcome.success { rowCount := some 1 }

/-- A connection that fails exactly the `BEGIN` statement with a
non-database-shaped exception and answers everything else with success. -/
def connBeginCrash : Conn := fun t _ =>
  if t = SqlText.plain "BEGIN" then ConnOutcome.throwOther "socket hang up"
  else ConnOutcome.success { rowCount := some 1 }

/-- The `BEGIN` submission of the canonical sessions. -/
def qBegin : Query := { sql := SqlText.plain "BEGIN" }

/-- The `COMMIT` submission of the canonical sessions. -/
def qCommit : Query := { sql := SqlText.plain "COMMIT" }

/-- A write submission. -/
def qUpdate : Query := { sql := SqlText.plain "UPDATE t SET x = 1" }

/-- A read submission. -/
def qSelect : Query := { sql := SqlText.plain "SELECT 1" }

/-- A context-marker submission carrying payload `p`. -/
def qMarker (p : Payload) : Query := { sql := SqlText.comment p }


/-- A sample database-shaped error used in witnesses. -/
def pgErrW : PgError :=
  { code := "08006", severity := "ERROR", message := "connection failure",
    detail := some "d", column := none, hint := some "h" }

example : isBeginQuery (SqlText.plain "BEGIN") = true := by decide
example : isBeginQuery (SqlText.plain "  begin") = true := by decide
example : isCommitQuery (SqlText.plain "COMMIT") = true := by decide
example : isWriteQuery (SqlText.plain "UPDATE t SET x = 1") = true := by decide
example : isWriteQuery (SqlText.plain "SELECT 1") = false := by decide
example : sqlCommentToContext (contextToSqlComment [("a", "b")]) = [("a", "b")] := rfl

/-- Two nonempty prefixes of the same list start with the same character. -/
theorem prefix_head_eq {a b : Char} {as bs l : List Char}
    (ha : (a :: as) <+: l) (hb : (b :: bs) <+: l) : a = b := by
  obtain ⟨t1, h1⟩ := ha
  obtain ⟨t2, h2⟩ := hb
  rw [← h1] at h2
  simp only [List.cons_append] at h2
  exact ((List.cons.injEq ..).mp h2).1.symm

/-- Two keyword matches on the same text must agree on the first character of
the keyword. -/
theorem startsWithKeyword_head_eq {c₁ c₂ : Char} {k₁ k₂ s : String}
    (e₁ : k₁.data = c₁ :: k₁.data.tail) (e₂ : k₂.data = c₂ :: k₂.data.tail)
    (h₁ : startsWithKeyword k₁ s = true) (h₂ : startsWithKeyword k₂ s = true) :
    c₁ = c₂ := by
  unfold startsWithKeyword at h₁ h₂
  have p₁ := List.isPrefixOf_iff_prefix.mp h₁
  have p₂ := List.isPrefixOf_iff_prefix.mp h₂
  rw [e₁] at p₁
  rw [e₂] at p₂
  exact prefix_head_eq p₁ p₂

/-- A write statement never classifies as a context marker. -/
theorem not_context_of_write {t : SqlText} (h : isWriteQuery t = true) :
    isContextComment t = false := by
  cases t <;> simp_all [isWriteQuery, isContextComment]

/-- A `BEGIN` statement never classifies as a context marker. -/
theorem not_context_of_begin {t : SqlText} (h : isBeginQuery t = true) :
    isContextComment t = false := by
  cases t <;> simp_all [isBeginQuery, isContextComment]

/-- A `COMMIT` statement never classifies as a context marker. -/
theorem not_context_of_commit {t : SqlText} (h : isCommitQuery t = true) :
    isContextComment t = false := by
  cases t <;> simp_all [isCommitQuery, isContextComment]

/-- A write statement never classifies as `COMMIT`: the leading keywords
differ in their first character. -/
theorem not_commit_of_write : ∀ {t : SqlText}, isWriteQuery t = true →
    isCommitQuery t = false := by
  intro t
  induction t with
  | plain s =>
      intro h
      by_contra hc
      rw [Bool.not_eq_false] at hc
      have hc' : startsWithKeyword "COMMIT" s = true := hc
      simp only [isWriteQuery, Bool.or_eq_true] at h
      rcases h with h | h
      · rcases h with h | h
        · exact absurd (startsWithKeyword_head_eq rfl rfl h hc') (by decide)
        · exact absurd (startsWithKeyword_head_eq rfl rfl h hc') (by decide)
      · exact absurd (startsWithKeyword_head_eq rfl rfl h hc') (by decide)
  | comment p => intro h; simp [isWriteQuery] at h
  | withComment base p ih =>
      intro h
      exact ih h

/-- Counterexample to C1 as stated: in the session `BEGIN`, marker `k=1`,
marker `k=2`, write, the log holds two context markers when the write is
submitted; the comment appended to the write decodes to the merge with the
EARLIEST marker's payload (`k = 1`, the source's `previousQueries.find`), not
with the most recent one (`k = 2`). -/
theorem c1_counterexample :
    (runSession connOk 9 [qBegin, qMarker [("k", "1")], qMarker [("k", "2")], qUpdate]
        transactionContextClient).2.2.getLast? =
      some (SqlText.withComment (SqlText.plain "UPDATE t SET x = 1")
        [("SQL", "UPDATE t SET x = 1"), ("k", "1")], []) ∧
    lookupKey "k" (sqlCommentToContext (SqlText.withComment
      (SqlText.plain "UPDATE t SET x = 1")
      [("SQL", "UPDATE t SET x = 1"), ("k", "1")])) = some "1" ∧
    lookupKey "k" (sqlCommentToContext (qMarker [("k", "2")]).sql) = some "2" ∧
    (some "1" : Option String) ≠ some "2" := by
  exact ⟨rfl, rfl, rfl, by decide⟩

/-- Counterexample to C2 as stated: when the prior context itself binds the
reserved key (`SQL = other`), the JavaScript spread `\x7b SQL: sql,
...decoded \x7d` lets the prior binding overwrite the statement's own text,
so the appended comment decodes with `SQL = other`, not the write's original
text. -/
theorem c2_counterexample :
    (runSession connOk 9 [qBegin, qMarker [("SQL", "other")], qUpdate]
        transactionContextClient).2.2 =
      [(SqlText.withComment (SqlText.plain "UPDATE t SET x = 1") [("SQL", "other")], [])] ∧
    lookupKey reservedKey (sqlCommentToContext
      (SqlText.withComment (SqlText.plain "UPDATE t SET x = 1") [("SQL", "other")])) =
      some "other" ∧
    (SqlText.plain "UPDATE t SET x = 1").render = "UPDATE t SET x = 1" ∧
    (some "other" : Option String) ≠ some "UPDATE t SET x = 1" := by
  exact ⟨rfl, rfl, rfl, by decide⟩

/-- C3's failing input evaluated on the code: in the session `BEGIN`,
`SELECT 1`, the materialization replay of `BEGIN` fails with a
database-shaped error, yet the replay loop discards the returned failure
(line 171 ignores `performIO`'s result): the triggering `SELECT 1` is still
executed and its success is returned to the caller, so the failure never
surfaces and replay continues past it. -/
theorem c3_replay_failure_swallowed :
    connBeginDbFail (SqlText.plain "BEGIN") [] =
      ConnOutcome.throwDb
        { code := "57P01", severity := "FATAL", message := "terminating connection" } ∧
    runSession connBeginDbFail 9 [qBegin, qSelect] transactionContextClient =
      ([Except.ok (Except.ok EMPTY_RESULT), Except.ok (Except.ok { rowCount := some 1 })],
       { tx := some { previousQueries := [qBegin, qSelect], readyToExecuteTransaction := true },
         releaseCount := 0 },
       [(SqlText.plain "BEGIN", []), (SqlText.plain "SELECT 1", [])]) := by
  exact ⟨rfl, rfl⟩

/-- Counterexample to C7 as stated: a context-marker submission does not
always return an empty result — when the marker itself is the third statement
of an unmaterialized session it fires the materialization trigger, and a
non-database-shaped failure thrown while replaying `BEGIN` propagates to the
marker's caller instead of the empty result.  (The marker is still never
forwarded: the trace holds only the replayed `BEGIN`.) -/
theorem c7_counterexample :
    isContextComment (qMarker [("b", "2")]).sql = true ∧
    (runSession connBeginCrash 9 [qBegin, qMarker [("a", "1")], qMarker [("b", "2")]]
        transactionContextClient).1 =
      [Except.ok (Except.ok EMPTY_RESULT), Except.ok (Except.ok EMPTY_RESULT),
       Except.error "socket hang up"] ∧
    (runSession connBeginCrash 9 [qBegin, qMarker [("a", "1")], qMarker [("b", "2")]]
        transactionContextClient).2.2 = [(SqlText.plain "BEGIN", [])] ∧
    (Except.error "socket hang up" : Except String DriverResult) ≠
      Except.ok (Except.ok EMPTY_RESULT) := by
  refine ⟨rfl, rfl, rfl, fun h => Except.noConfusion h⟩

/-- Counterexample to C8 as stated: after `commit()` releases the client, a
further submission is not rejected as a usage defect — the adapter runs the
same algorithm and forwards the statement to the (already released) physical
connection, returning the connection's result. -/
theorem c8_counterexample :
    (PgTransaction.commit transactionContextClient).2.1.releaseCount = 1 ∧
    performIo connOk 9 qSelect false (PgTransaction.commit transactionContextClient).2.1 =
      (Except.ok (Except.ok { rowCount := some 1 }),
       { tx := some { previousQueries := [qSelect], readyToExecuteTransaction := false },
         releaseCount := 1 },
       [(SqlText.plain "SELECT 1", [])]) := by
  exact ⟨rfl, rfl⟩

@[simp] theorem isContextComment_plain (s : String) :
    isContextComment (SqlText.plain s) = false := rfl

@[simp] theorem isContextComment_comment (p : Payload) :
    isContextComment (SqlText.comment p) = true := rfl

@[simp] theorem isContextComment_withComment (b : SqlText) (p : Payload) :
    isContextComment (SqlText.withComment b p) = false := rfl

@[simp] theorem isBeginQuery_comment (p : Payload) :
    isBeginQuery (SqlText.comment p) = false := rfl

@[simp] theorem isCommitQuery_comment (p : Payload) :
    isCommitQuery (SqlText.comment p) = false := rfl

@[simp] theorem isWriteQuery_comment (p : Payload) :
    isWriteQuery (SqlText.comment p) = false := rfl

@[simp] theorem sqlCommentToContext_comment (p : Payload) :
    sqlCommentToContext (SqlText.comment p) = p := rfl

/-- A `BEGIN` submitted first on a fresh transaction session is suppressed:
empty result, nothing forwarded, the statement logged. -/
theorem step_begin_fresh (conn : Conn) (f : Nat) (q : Query) (hb : isBeginQuery q.sql = true) :
    performIoTx conn (f + 1) q false
      (some { previousQueries := [], readyToExecuteTransaction := false }) =
      (Except.ok (Except.ok EMPTY_RESULT),
       some { previousQueries := [q], readyToExecuteTransaction := false }, []) := by
  have hc : isContextComment q.sql = false := not_context_of_begin hb
  simp [performIoTx, compactPerformIOResult, rewrittenText, hb, hc, wrapIo]

/-- A context marker submitted second after a suppressed `BEGIN` is
suppressed: empty result, nothing forwarded. -/
theorem step_marker_second (conn : Conn) (f : Nat) (p : Payload) :
    performIoTx conn (f + 1) (qMarker p) false
      (some { previousQueries := [qBegin], readyToExecuteTransaction := false }) =
      (Except.ok (Except.ok EMPTY_RESULT),
       some { previousQueries := [qBegin, qMarker p], readyToExecuteTransaction := false }, []) := by
  simp [performIoTx, compactPerformIOResult, rewrittenText, qMarker, qBegin,
    isContextComment, isBeginQuery, isCommitQuery, isWriteQuery, wrapIo]

/-- A write submitted third after `BEGIN` and a context marker is forwarded
once, rewritten with the trailing comment encoding the spread-merge of the
reserved key and the marker payload. -/
theorem step_write_third (conn : Conn) (f : Nat) (p : Payload) (w : Query)
    (hw : isWriteQuery w.sql = true) :
    ∃ res, performIoTx conn (f + 1) w false
      (some { previousQueries := [qBegin, qMarker p], readyToExecuteTransaction := false }) =
      (res,
       some { previousQueries := [qBegin, qMarker p, w], readyToExecuteTransaction := false },
       [(SqlText.withComment w.sql (jsSpreadMerge w.sql.render p), w.args)]) := by
  have hc : isContextComment w.sql = false := not_context_of_write hw
  have hcm : isCommitQuery w.sql = false := not_commit_of_write hw
  rcases h : conn (SqlText.withComment w.sql (jsSpreadMerge w.sql.render p)) w.args with r | e | m <;>
    simp [performIoTx, compactPerformIOResult, rewrittenText, qMarker, qBegin,
      hw, hc, hcm, wrapIo, execQuery, h]

/-- The `COMMIT` that closes the canonical four-entry shape is suppressed:
empty result, nothing forwarded. -/
theorem step_commit_fourth (conn : Conn) (f : Nat) (p : Payload) (w : Query) :
    performIoTx conn (f + 1) qCommit false
      (some { previousQueries := [qBegin, qMarker p, w], readyToExecuteTransaction := false }) =
      (Except.ok (Except.ok EMPTY_RESULT),
       some { previousQueries := [qBegin, qMarker p, w, qCommit],
              readyToExecuteTransaction := false }, []) := by
  simp [performIoTx, compactPerformIOResult, rewrittenText, qMarker, qBegin, qCommit,
    wrapIo, isBeginQuery, isCommitQuery, isWriteQuery, startsWithKeyword, normalizeSql]

/-- Full run of the canonical session `BEGIN`, marker, write, `COMMIT` on a
fresh transaction client: three suppressed submissions and exactly one
physical call carrying the rewritten write. -/
theorem canonicalSession_eq (conn : Conn) (f : Nat) (p : Payload) (w : Query)
    (hw : isWriteQuery w.sql = true) :
    ∃ res, runSession conn (f + 1) [qBegin, qMarker p, w, qCommit] transactionContextClient =
      ([Except.ok (Except.ok EMPTY_RESULT), Except.ok (Except.ok EMPTY_RESULT), res,
        Except.ok (Except.ok EMPTY_RESULT)],
       { tx := some { previousQueries := [qBegin, qMarker p, w, qCommit],
                      readyToExecuteTransaction := false }, releaseCount := 0 },
       [(SqlText.withComment w.sql (jsSpreadMerge w.sql.render p), w.args)]) := by
  obtain ⟨res, h3⟩ := step_write_third conn f p w hw
  refine ⟨res, ?_⟩
  have h1 := step_begin_fresh conn f qBegin (by decide)
  have h2 := step_marker_second conn f p
  have h4 := step_commit_fourth conn f p w
  simp [runSession, performIo, transactionContextClient, h1, h2, h3, h4]

/-- C5: for every session beginning with a suppressed `BEGIN` whose second
submission is not a context marker, the physical connection receives the real
`BEGIN` (via replay) strictly before the second statement — the second
submission's trace starts with the `BEGIN` — and the session's
`readyToExecuteTransaction` flag is true afterwards. -/
theorem c5_begin_replayed_before_second (conn : Conn) (f : Nat) (q1 q2 : Query)
    (hb : isBeginQuery q1.sql = true) (hc2 : isContextComment q2.sql = false) :
    performIo conn (f + 2) q1 false transactionContextClient =
      (Except.ok (Except.ok EMPTY_RESULT),
       { tx := some { previousQueries := [q1], readyToExecuteTransaction := false },
         releaseCount := 0 }, []) ∧
    ∃ rest,
      (performIo conn (f + 2) q2 false
          { tx := some { previousQueries := [q1], readyToExecuteTransaction := false },
            releaseCount := 0 }).2.2 = (q1.sql, q1.args) :: rest ∧
      (rest = [] ∨ rest = [(q2.sql, q2.args)]) ∧
      ((∀ m, conn q1.sql q1.args ≠ ConnOutcome.throwOther m) → rest = [(q2.sql, q2.args)]) ∧
      (performIo conn (f + 2) q2 false
          { tx := some { previousQueries := [q1], readyToExecuteTransaction := false },
            releaseCount := 0 }).2.1.tx =
        some { previousQueries := [q1, q2], readyToExecuteTransaction := true } := by
  have hq1c : isContextComment q1.sql = false := not_context_of_begin hb
  constructor
  · have h1 := step_begin_fresh conn (f + 1) q1 hb
    simp [performIo, transactionContextClient, h1]
  · rcases h : conn q1.sql q1.args with r | e | m
    · refine ⟨[(q2.sql, q2.args)], ?_⟩
      rcases h2 : conn q2.sql q2.args with r2 | e2 | m2 <;>
        simp [performIo, performIoTx, compactPerformIOResult, rewrittenText, hq1c, hc2,
          runReplays, execQuery, h, h2, wrapIo]
    · refine ⟨[(q2.sql, q2.args)], ?_⟩
      rcases h2 : conn q2.sql q2.args with r2 | e2 | m2 <;>
        simp [performIo, performIoTx, compactPerformIOResult, rewrittenText, hq1c, hc2,
          runReplays, execQuery, h, h2, wrapIo]
    · refine ⟨[], ?_, Or.inl rfl, fun hcl => absurd rfl (hcl m), ?_⟩ <;>
        simp [performIo, performIoTx, compactPerformIOResult, rewrittenText, hq1c, hc2,
          runReplays, execQuery, h, wrapIo]

theorem wrapIo_state (x : Except Thrown QueryResult × Option TxState × Trace) :
    (wrapIo x).2.1 = x.2.1 := by
  obtain ⟨res, τ, tr⟩ := x
  cases res with
  | ok r => rfl
  | error t => cases t <;> rfl

theorem wrapIo_trace (x : Except Thrown QueryResult × Option TxState × Trace) :
    (wrapIo x).2.2 = x.2.2 := by
  obtain ⟨res, τ, tr⟩ := x
  cases res with
  | ok r => rfl
  | error t => cases t <;> rfl

theorem compact_preserves_ready (conn : Conn) :
    ∀ (fuel : Nat) (q : Query) (cu : Bool) (l : List Query),
      ∃ l', (compactPerformIOResult conn fuel q cu
          (some { previousQueries := l, readyToExecuteTransaction := true })).2.1 =
        some { previousQueries := l', readyToExecuteTransaction := true } := by
  intro fuel q cu l
  cases fuel with
  | zero => exact ⟨l, rfl⟩
  | succ f =>
      cases cu with
      | false =>
          refine ⟨l ++ [q], ?_⟩
          cases hcx : isContextComment q.sql with
          | true => simp [compactPerformIOResult, hcx]
          | false =>
              rcases h : conn (rewrittenText l q.sql) q.args with r | e | m <;>
                simp [compactPerformIOResult, hcx, execQuery, h]
      | true =>
          refine ⟨l, ?_⟩
          cases hcx : isContextComment q.sql with
          | true => simp [compactPerformIOResult, hcx]
          | false =>
              rcases h : conn (rewrittenText l q.sql) q.args with r | e | m <;>
                simp [compactPerformIOResult, hcx, execQuery, h]

theorem compact_ready_trace (conn : Conn) (f : Nat) (q : Query) (cu : Bool) (l : List Query)
    (hcx : isContextComment q.sql = false) :
    (compactPerformIOResult conn (f + 1) q cu
        (some { previousQueries := l, readyToExecuteTransaction := true })).2.2 =
      [(rewrittenText l q.sql, q.args)] := by
  cases cu <;>
  · rcases h : conn (rewrittenText l q.sql) q.args with r | e | m <;>
      simp [compactPerformIOResult, hcx, execQuery, h]

/-- C6: materialization is monotonic — the flag starts false on a fresh
session, a submission on a materialized session leaves it true, and once true
no `BEGIN` or `COMMIT` submission is suppressed: it is forwarded to the
physical connection as the single call of that submission. -/
theorem c6_materialization_monotone :
    (transactionContextClient.tx.map TxState.readyToExecuteTransaction = some false) ∧
    (∀ (conn : Conn) (fuel : Nat) (q : Query) (cu : Bool) (cl : Client) (l : List Query),
      cl.tx = some { previousQueries := l, readyToExecuteTransaction := true } →
      ∃ l', (performIo conn fuel q cu cl).2.1.tx =
        some { previousQueries := l', readyToExecuteTransaction := true }) ∧
    (∀ (conn : Conn) (f : Nat) (q : Query) (cl : Client) (l : List Query),
      cl.tx = some { previousQueries := l, readyToExecuteTransaction := true } →
      (isBeginQuery q.sql || isCommitQuery q.sql) = true →
      (performIo conn (f + 1) q false cl).2.2 = [(rewrittenText l q.sql, q.args)]) := by
  refine ⟨rfl, ?_, ?_⟩
  · intro conn fuel q cu cl l htx
    obtain ⟨l', hl'⟩ := compact_preserves_ready conn fuel q cu l
    refine ⟨l', ?_⟩
    simp [performIo, performIoTx, htx, wrapIo_state, hl']
  · intro conn f q cl l htx hbc
    have hcx : isContextComment q.sql = false := by
      rcases Bool.or_eq_true_iff.mp hbc with h | h
      · exact not_context_of_begin h
      · exact not_context_of_commit h
    simp [performIo, performIoTx, htx, wrapIo_trace, compact_ready_trace conn f q false l hcx]

theorem rewrittenText_not_context (l : List Query) (t : SqlText)
    (h : isContextComment t = false) : isContextComment (rewrittenText l t) = false := by
  rcases hf : (l.find? (fun p => isContextComment p.sql)).map Query.sql with _ | m
  · simp [rewrittenText, hf, h]
  · cases hw : isWriteQuery t <;> simp [rewrittenText, hf, hw, h]

theorem runReplays_some_nomarker
    (step : Query → Option TxState → Except String DriverResult × Option TxState × Trace)
    (hsome : ∀ p ts, ∃ ts', (step p (some ts)).2.1 = some ts')
    (hmark : ∀ p ts e, e ∈ (step p (some ts)).2.2 → isContextComment e.1 = false) :
    ∀ (qs : List Query) (ts : TxState),
      (∃ ts', (runReplays step qs (some ts)).2.1 = some ts') ∧
      (∀ e ∈ (runReplays step qs (some ts)).2.2, isContextComment e.1 = false) := by
  intro qs
  induction qs with
  | nil =>
      intro ts
      exact ⟨⟨ts, rfl⟩, by intro e he; simp [runReplays] at he⟩
  | cons q rest ih =>
      intro ts
      obtain ⟨ts', hts'⟩ := hsome q ts
      have hm := hmark q ts
      rcases hstep : step q (some ts) with ⟨res, τ', tr⟩
      rw [hstep] at hts' hm
      simp only at hts' hm
      cases res with
      | error m =>
          subst hts'
          exact ⟨⟨ts', by simp [runReplays, hstep]⟩, by
            intro e he
            simp only [runReplays, hstep] at he
            exact hm e he⟩
      | ok u =>
          subst hts'
          obtain ⟨⟨ts'', hts''⟩, htr⟩ := ih ts'
          rcases hrest : runReplays step rest (some ts') with ⟨o, τ'', tr'⟩
          rw [hrest] at hts'' htr
          simp only at hts'' htr
          subst hts''
          refine ⟨⟨ts'', by simp [runReplays, hstep, hrest]⟩, ?_⟩
          intro e he
          simp only [runReplays, hstep, hrest] at he
          rcases List.mem_append.mp he with h | h
          · exact hm e h
          · exact htr e h


theorem execQuery_trace (conn : Conn) (t : SqlText) (v : List String) :
    (execQuery conn t v).2 = [(t, v)] := by
  rcases h : conn t v with r | e | m <;> simp [execQuery, h]

theorem runReplays_inv
    (step : Query → Option TxState → Except String DriverResult × Option TxState × Trace)
    (hsome : ∀ p ts, (step p (some ts)).2.1.isSome = true)
    (hmark : ∀ p ts e, e ∈ (step p (some ts)).2.2 → isContextComment e.1 = false) :
    ∀ (qs : List Query) (ts : TxState),
      (runReplays step qs (some ts)).2.1.isSome = true ∧
      (∀ e ∈ (runReplays step qs (some ts)).2.2, isContextComment e.1 = false) := by
  intro qs
  induction qs with
  | nil =>
      intro ts
      exact ⟨rfl, by intro e he; simp [runReplays] at he⟩
  | cons q rest ih =>
      intro ts
      have hs := hsome q ts
      have hm := hmark q ts
      rcases hstep : step q (some ts) with ⟨res, τ', tr⟩
      rw [hstep] at hs hm
      simp only at hs hm
      cases res with
      | error m =>
          refine ⟨by simp [runReplays, hstep, hs], ?_⟩
          intro e he
          simp only [runReplays, hstep] at he
          exact hm e he
      | ok u =>
          obtain ⟨ts', hts'⟩ := Option.isSome_iff_exists.mp hs
          subst hts'
          obtain ⟨h1, h2⟩ := ih ts'
          rcases hrest : runReplays step rest (some ts') with ⟨o, τ'', tr'⟩
          rw [hrest] at h1 h2
          simp only at h1 h2
          refine ⟨by simp [runReplays, hstep, hrest, h1], ?_⟩
          intro e he
          simp only [runReplays, hstep, hrest] at he
          rcases List.mem_append.mp he with h | h
          · exact hm e h
          · exact h2 e h



theorem compact_some_inv (conn : Conn) :
    ∀ (fuel : Nat),
      (∀ (q : Query) (cu : Bool) (ts : TxState),
        (compactPerformIOResult conn fuel q cu (some ts)).2.1.isSome = true) ∧
      (∀ (q : Query) (cu : Bool) (ts : TxState) (e : SqlText × List String),
        e ∈ (compactPerformIOResult conn fuel q cu (some ts)).2.2 →
        isContextComment e.1 = false) := by
  intro fuel
  induction fuel with
  | zero =>
      refine ⟨fun q cu ts => rfl, fun q cu ts e he => ?_⟩
      simp [compactPerformIOResult] at he
  | succ f ih =>
      have hsome : ∀ (p : Query) (ts2 : TxState),
          ((fun p τ' => wrapIo (compactPerformIOResult conn f p true τ'))
            p (some ts2)).2.1.isSome = true := by
        intro p ts2
        simp only [wrapIo_state]
        exact ih.1 p true ts2
      have hmark : ∀ (p : Query) (ts2 : TxState) (e : SqlText × List String),
          e ∈ ((fun p τ' => wrapIo (compactPerformIOResult conn f p true τ'))
            p (some ts2)).2.2 → isContextComment e.1 = false := by
        intro p ts2 e he
        simp only [wrapIo_trace] at he
        exact ih.2 p true ts2 e he
      have hrr := runReplays_inv
        (fun p τ' => wrapIo (compactPerformIOResult conn f p true τ')) hsome hmark
      constructor
      · intro q cu ts
        obtain ⟨l, r⟩ := ts
        cases cu with
        | false =>
            rcases hloop : runReplays
                (fun p τ' => wrapIo (compactPerformIOResult conn f p true τ'))
                (l ++ [q]).dropLast
                (some { previousQueries := l ++ [q], readyToExecuteTransaction := true }) with
              ⟨o, τ', tr⟩
            have hS := (hrr (l ++ [q]).dropLast
              { previousQueries := l ++ [q], readyToExecuteTransaction := true }).1
            rw [hloop] at hS
            simp only at hS
            simp only [compactPerformIOResult, Bool.false_eq_true, if_false,
              eq_self_iff_true, if_true]
            rw [hloop]
            cases o with
            | error m =>
                try dsimp only
                repeat' split
                all_goals first | rfl | exact hS
            | ok u =>
                try dsimp only
                repeat' split
                all_goals first | rfl | exact hS
        | true =>
            rcases hloop : runReplays
                (fun p τ' => wrapIo (compactPerformIOResult conn f p true τ'))
                l.dropLast
                (some { previousQueries := l, readyToExecuteTransaction := true }) with
              ⟨o, τ', tr⟩
            have hS := (hrr l.dropLast
              { previousQueries := l, readyToExecuteTransaction := true }).1
            rw [hloop] at hS
            simp only at hS
            simp only [compactPerformIOResult, Bool.false_eq_true, if_false,
              eq_self_iff_true, if_true]
            rw [hloop]
            cases o with
            | error m =>
                try dsimp only
                repeat' split
                all_goals first | rfl | exact hS
            | ok u =>
                try dsimp only
                repeat' split
                all_goals first | rfl | exact hS
      · intro q cu ts e he
        obtain ⟨l, r⟩ := ts
        obtain ⟨t0, a0⟩ := e
        cases cu with
        | false =>
            rcases hloop : runReplays
                (fun p τ' => wrapIo (compactPerformIOResult conn f p true τ'))
                (l ++ [q]).dropLast
                (some { previousQueries := l ++ [q], readyToExecuteTransaction := true }) with
              ⟨o, τ', tr⟩
            have hM : ∀ x, x ∈ tr → isContextComment x.1 = false := by
              have h := (hrr (l ++ [q]).dropLast
                { previousQueries := l ++ [q], readyToExecuteTransaction := true }).2
              rw [hloop] at h
              exact h
            simp only [compactPerformIOResult, Bool.false_eq_true, if_false,
              eq_self_iff_true, if_true] at he
            rw [hloop] at he
            cases o with
            | error m =>
                try dsimp only at he
                repeat' split at he
                all_goals clear hrr hsome hmark ih
                all_goals try exact hM (t0, a0) he
                all_goals try ((obtain hx | hx := List.mem_append.mp he) <;>
                  first
                  | exact hM (t0, a0) hx
                  | simp_all [rewrittenText_not_context, execQuery_trace])
                all_goals simp_all [List.mem_append, rewrittenText_not_context, execQuery_trace]
            | ok u =>
                try dsimp only at he
                repeat' split at he
                all_goals clear hrr hsome hmark ih
                all_goals try exact hM (t0, a0) he
                all_goals try ((obtain hx | hx := List.mem_append.mp he) <;>
                  first
                  | exact hM (t0, a0) hx
                  | simp_all [rewrittenText_not_context, execQuery_trace])
                all_goals simp_all [List.mem_append, rewrittenText_not_context, execQuery_trace]
        | true =>
            rcases hloop : runReplays
                (fun p τ' => wrapIo (compactPerformIOResult conn f p true τ'))
                l.dropLast
                (some { previousQueries := l, readyToExecuteTransaction := true }) with
              ⟨o, τ', tr⟩
            have hM : ∀ x, x ∈ tr → isContextComment x.1 = false := by
              have h := (hrr l.dropLast
                { previousQueries := l, readyToExecuteTransaction := true }).2
              rw [hloop] at h
              exact h
            simp only [compactPerformIOResult, Bool.false_eq_true, if_false,
              eq_self_iff_true, if_true] at he
            rw [hloop] at he
            cases o with
            | error m =>
                try dsimp only at he
                repeat' split at he
                all_goals clear hrr hsome hmark ih
                all_goals try exact hM (t0, a0) he
                all_goals try ((obtain hx | hx := List.mem_append.mp he) <;>
                  first
                  | exact hM (t0, a0) hx
                  | simp_all [rewrittenText_not_context, execQuery_trace])
                all_goals simp_all [List.mem_append, rewrittenText_not_context, execQuery_trace]
            | ok u =>
                try dsimp only at he
                repeat' split at he
                all_goals clear hrr hsome hmark ih
                all_goals try exact hM (t0, a0) he
                all_goals try ((obtain hx | hx := List.mem_append.mp he) <;>
                  first
                  | exact hM (t0, a0) hx
                  | simp_all [rewrittenText_not_context, execQuery_trace])
                all_goals simp_all [List.mem_append, rewrittenText_not_context, execQuery_trace]

theorem nat_beq_ss_one (n : Nat) : (n + 1 + 1 == 1) = false := rfl

theorem nat_beq_sss_two (n : Nat) : (n + 1 + 1 + 1 == 2) = false := rfl

theorem performIoTx_succ (conn : Conn) (f : Nat) (q : Query) (cu : Bool) (τ : Option TxState) :
    performIoTx conn (f + 1) q cu τ =
      wrapIo (match τ with
        | none => ((execQuery conn q.sql q.args).1, none, (execQuery conn q.sql q.args).2)
        | some ts₀ =>
          let isContext := isContextComment q.sql
          let isWrite := isWriteQuery q.sql
          let previousContextComment :=
            (ts₀.previousQueries.find? (fun p => isContextComment p.sql)).map Query.sql
          let text : SqlText := rewrittenText ts₀.previousQueries q.sql
          let ts₁ :=
            if cu then ts₀
            else { ts₀ with previousQueries := ts₀.previousQueries ++ [q] }
          let finish : Option TxState → Trace →
              Except Thrown QueryResult × Option TxState × Trace :=
            fun τ' tr =>
              if isContext then (Except.ok EMPTY_RESULT, τ', tr)
              else ((execQuery conn text q.args).1, τ', tr ++ (execQuery conn text q.args).2)
          if ts₁.readyToExecuteTransaction then
            finish (some ts₁) []
          else if isBeginQuery q.sql && (ts₁.previousQueries.length == 1) then
            (Except.ok EMPTY_RESULT, some ts₁, [])
          else if isCommitQuery q.sql && previousContextComment.isSome &&
              (ts₁.previousQueries.length == 4) then
            (Except.ok EMPTY_RESULT, some ts₁, [])
          else if (ts₁.previousQueries.length == 2 && !isContext) ||
              (ts₁.previousQueries.length == 3 && !isWrite) then
            match runReplays (fun p τ' => performIoTx conn f p true τ')
                ts₁.previousQueries.dropLast
                (some { ts₁ with readyToExecuteTransaction := true }) with
            | (Except.error m, τ', tr) => (Except.error (Thrown.other m), τ', tr)
            | (Except.ok _, τ', tr) => finish τ' tr
          else
            finish (some ts₁) []) := rfl

theorem replay_step_ok (conn : Conn)
    (hclean : ∀ t a m, conn t a ≠ ConnOutcome.throwOther m)
    (f : Nat) (p : Query) (l : List Query) :
    ∃ r tr, performIoTx conn (f + 1) p true
        (some { previousQueries := l, readyToExecuteTransaction := true }) =
      (Except.ok r, some { previousQueries := l, readyToExecuteTransaction := true }, tr) := by
  rw [performIoTx_succ]
  cases hcx : isContextComment p.sql with
  | true =>
      refine ⟨Except.ok EMPTY_RESULT, [], ?_⟩
      simp [hcx, wrapIo]
  | false =>
      rcases h : conn (rewrittenText l p.sql) p.args with r | e | m
      · refine ⟨Except.ok r, [(rewrittenText l p.sql, p.args)], ?_⟩
        simp [hcx, execQuery, h, wrapIo]
      · refine ⟨Except.error (DriverError.postgres e.code e.severity e.message
          e.detail e.column e.hint), [(rewrittenText l p.sql, p.args)], ?_⟩
        simp [hcx, execQuery, h, wrapIo]
      · exact absurd h (hclean _ _ m)

theorem runReplays_clean (conn : Conn)
    (hclean : ∀ t a m, conn t a ≠ ConnOutcome.throwOther m) (f : Nat) :
    ∀ (qs : List Query) (l : List Query),
      ∃ tr, runReplays (fun p τ' => performIoTx conn (f + 1) p true τ')
          qs (some { previousQueries := l, readyToExecuteTransaction := true }) =
        (Except.ok (), some { previousQueries := l, readyToExecuteTransaction := true }, tr) := by
  intro qs
  induction qs with
  | nil => intro l; exact ⟨[], rfl⟩
  | cons p rest ih =>
      intro l
      obtain ⟨r, tr, hstep⟩ := replay_step_ok conn hclean f p l
      obtain ⟨tr', hrest⟩ := ih l
      refine ⟨tr ++ tr', ?_⟩
      simp [runReplays, hstep, hrest]

/-- C7, amended: a statement that classifies as a context marker is never
forwarded to the physical connection as a standalone statement — no trace
element of any submission on a transaction session is a marker — and the
marker's submission returns the empty result whenever the connection never
throws non-database-shaped failures (a non-database failure thrown during a
replay the marker itself triggers propagates instead, see the
counterexample). -/
theorem c7_context_marker_suppressed :
    (∀ (conn : Conn) (fuel : Nat) (q : Query) (cu : Bool) (cl : Client) (ts : TxState),
      cl.tx = some ts → isContextComment q.sql = true →
      ∀ e ∈ (performIo conn fuel q cu cl).2.2, isContextComment e.1 = false) ∧
    (∀ (conn : Conn) (f : Nat) (q : Query) (cl : Client) (ts : TxState),
      cl.tx = some ts → isContextComment q.sql = true →
      (∀ t a m, conn t a ≠ ConnOutcome.throwOther m) →
      (performIo conn (f + 2) q false cl).1 = Except.ok (Except.ok EMPTY_RESULT)) := by
  constructor
  · intro conn fuel q cu cl ts htx hq e he
    have hmem : e ∈ (compactPerformIOResult conn fuel q cu cl.tx).2.2 := by
      simpa [performIo, performIoTx, wrapIo_trace] using he
    rw [htx] at hmem
    exact (compact_some_inv conn fuel).2 q cu ts e hmem
  · intro conn f q cl ts htx hq hclean
    obtain ⟨l, r⟩ := ts
    rcases hsql : q.sql with s | p | ⟨b, pc⟩
    · rw [hsql] at hq; simp [isContextComment] at hq
    · have hgoal : (performIo conn (f + 2) q false cl).1 =
          (performIoTx conn (f + 2) q false cl.tx).1 := rfl
      rw [hgoal, htx, performIoTx_succ]
      cases r with
      | true => simp [hsql, wrapIo]
      | false =>
          by_cases hlen : l.length = 2
          · obtain ⟨tr, hloop⟩ := runReplays_clean conn hclean f l (l ++ [q])
            simp [hsql, hlen, hloop, wrapIo]
          · simp [hsql, hlen, wrapIo]
    · rw [hsql] at hq; simp [isContextComment] at hq

/-- C1, amended: for every write statement submitted on a transaction session
whose log contains context markers, the payload merged into the rewritten
trailing comment is decoded from the EARLIEST context marker in the log (the
source uses `previousQueries.find`), not the most recent; under a connection
that never throws non-database-shaped failures, the write is the last
statement forwarded and carries exactly that merge. -/
theorem c1_earliest_marker (conn : Conn)
    (hclean : ∀ t a m, conn t a ≠ ConnOutcome.throwOther m)
    (f : Nat) (q : Query) (cl : Client) (ts : TxState) (mq : Query)
    (htx : cl.tx = some ts)
    (hw : isWriteQuery q.sql = true)
    (hfind : ts.previousQueries.find? (fun p => isContextComment p.sql) = some mq) :
    (performIo conn (f + 2) q false cl).2.2.getLast? =
      some (SqlText.withComment q.sql
        (jsSpreadMerge q.sql.render (sqlCommentToContext mq.sql)), q.args) := by
  obtain ⟨l, r⟩ := ts
  have hrw : rewrittenText l q.sql = SqlText.withComment q.sql
      (jsSpreadMerge q.sql.render (sqlCommentToContext mq.sql)) := by
    simp [rewrittenText, hfind, hw]
  have hcx : isContextComment q.sql = false := not_context_of_write hw
  have hcm : isCommitQuery q.sql = false := not_commit_of_write hw
  have hgoal : (performIo conn (f + 2) q false cl).2.2 =
      (performIoTx conn (f + 2) q false cl.tx).2.2 := rfl
  rw [hgoal, htx, performIoTx_succ]
  cases l with
  | nil => simp [List.find?] at hfind
  | cons a l' =>
      cases r with
      | true =>
          simp [wrapIo_trace, hcx, hcm, hrw, execQuery_trace]
      | false =>
          cases l' with
          | nil =>
              obtain ⟨tr, hloop⟩ := runReplays_clean conn hclean f [a] [a, q]
              simp [wrapIo_trace, hcx, hcm, hrw, execQuery_trace, hloop,
                nat_beq_ss_one, nat_beq_sss_two]
          | cons a2 l'' =>
              simp [wrapIo_trace, hcx, hcm, hw, hrw, execQuery_trace,
                nat_beq_ss_one, nat_beq_sss_two]

theorem lookupKey_setKey_same (p : Payload) (k : String) (v : String) :
    lookupKey k (setKey p (k, v)) = some v := by
  induction p with
  | nil => simp [setKey, lookupKey]
  | cons kv rest ih =>
      obtain ⟨k', v'⟩ := kv
      by_cases h : k' = k
      · simp [setKey, lookupKey, h]
      · simp [setKey, lookupKey, h, ih]

theorem lookupKey_setKey_other (p : Payload) (k k' : String) (v : String) (h : k' ≠ k) :
    lookupKey k' (setKey p (k, v)) = lookupKey k' p := by
  induction p with
  | nil => simp [setKey, lookupKey, Ne.symm h]
  | cons kv rest ih =>
      obtain ⟨k'', v''⟩ := kv
      by_cases h2 : k'' = k
      · subst h2
        simp [setKey, lookupKey, Ne.symm h]
      · simp [setKey, lookupKey, h2, ih]

theorem lookupKey_foldl_not_mem (ps : Payload) :
    ∀ (acc : Payload) (k : String), (∀ kv ∈ ps, kv.1 ≠ k) →
      lookupKey k (ps.foldl setKey acc) = lookupKey k acc := by
  induction ps with
  | nil => intro acc k _; rfl
  | cons kv rest ih =>
      intro acc k h
      obtain ⟨k0, v0⟩ := kv
      have hk0 : k0 ≠ k := h (k0, v0) (List.mem_cons_self _ _)
      have hrest : ∀ kv ∈ rest, kv.1 ≠ k := fun kv hkv => h kv (List.mem_cons_of_mem _ hkv)
      simp only [List.foldl_cons]
      rw [ih (setKey acc (k0, v0)) k hrest]
      exact lookupKey_setKey_other acc k0 k v0 (Ne.symm hk0)

theorem lookupKey_foldl_mem (ps : Payload) :
    ∀ (acc : Payload) (k v : String), (ps.map Prod.fst).Nodup → (k, v) ∈ ps →
      lookupKey k (ps.foldl setKey acc) = some v := by
  induction ps with
  | nil => intro acc k v _ hmem; simp at hmem
  | cons kv rest ih =>
      intro acc k v hnd hmem
      obtain ⟨k0, v0⟩ := kv
      simp only [List.map_cons, List.nodup_cons] at hnd
      rcases List.mem_cons.mp hmem with heq | hmem'
      · injection heq with hk hv
        subst hk
        subst hv
        simp only [List.foldl_cons]
        have hrest : ∀ kv ∈ rest, kv.1 ≠ k := by
          intro kv hkv
          intro hc
          exact hnd.1 (hc ▸ List.mem_map_of_mem Prod.fst hkv)
        rw [lookupKey_foldl_not_mem rest (setKey acc (k, v)) k hrest]
        exact lookupKey_setKey_same acc k v
      · simp only [List.foldl_cons]
        exact ih (setKey acc (k0, v0)) k v hnd.2 hmem'

theorem lookupKey_eq_none_iff (p : Payload) (k : String) :
    lookupKey k p = none ↔ ∀ kv ∈ p, kv.1 ≠ k := by
  induction p with
  | nil => simp [lookupKey]
  | cons kv rest ih =>
      obtain ⟨k', v'⟩ := kv
      by_cases h : k' = k
      · subst h
        simp [lookupKey]
      · simp [lookupKey, h, ih]

theorem lookupKey_some_mem (p : Payload) (k v : String) (h : lookupKey k p = some v) :
    (k, v) ∈ p := by
  induction p with
  | nil => simp [lookupKey] at h
  | cons kv rest ih =>
      obtain ⟨k', v'⟩ := kv
      by_cases h2 : k' = k
      · subst h2
        simp [lookupKey] at h
        subst h
        exact List.mem_cons_self _ _
      · simp [lookupKey, h2] at h
        exact List.mem_cons_of_mem _ (ih h)

theorem jsSpreadMerge_reserved (s : String) (p : Payload)
    (h : lookupKey reservedKey p = none) :
    lookupKey reservedKey (jsSpreadMerge s p) = some s := by
  unfold jsSpreadMerge
  rw [lookupKey_foldl_not_mem p [(reservedKey, s)] reservedKey
    ((lookupKey_eq_none_iff p reservedKey).mp h)]
  simp [lookupKey]

theorem jsSpreadMerge_preserves (s : String) (p : Payload)
    (hnd : (p.map Prod.fst).Nodup) (k : String) (hk : k ≠ reservedKey) :
    lookupKey k (jsSpreadMerge s p) = lookupKey k p := by
  unfold jsSpreadMerge
  rcases hlk : lookupKey k p with _ | v
  · rw [lookupKey_foldl_not_mem p [(reservedKey, s)] k
      ((lookupKey_eq_none_iff p k).mp hlk)]
    simp [lookupKey, Ne.symm hk]
  · exact lookupKey_foldl_mem p [(reservedKey, s)] k v hnd (lookupKey_some_mem p k v hlk)

/-- C4: for every session submitting exactly `BEGIN`, context marker, one
write, `COMMIT`, the physical connection receives exactly one call over the
whole session — the rewritten write — and the other three submissions each
return the empty result. -/
theorem c4_canonical_shape (conn : Conn) (f : Nat) (p : Payload) (w : Query)
    (hw : isWriteQuery w.sql = true) :
    ∃ res, runSession conn (f + 1) [qBegin, qMarker p, w, qCommit] transactionContextClient =
      ([Except.ok (Except.ok EMPTY_RESULT), Except.ok (Except.ok EMPTY_RESULT), res,
        Except.ok (Except.ok EMPTY_RESULT)],
       { tx := some { previousQueries := [qBegin, qMarker p, w, qCommit],
                      readyToExecuteTransaction := false }, releaseCount := 0 },
       [(SqlText.withComment w.sql (jsSpreadMerge w.sql.render p), w.args)]) :=
  canonicalSession_eq conn f p w hw

/-- C2, amended: in the canonical session, the write is forwarded with a
trailing comment that decodes to the prior context's keys, where the reserved
key maps to the write's original text provided the prior context does not
itself bind the reserved key (JavaScript spread lets a prior binding of the
reserved key win); all other keys of the prior context are preserved. -/
theorem c2_context_merge (conn : Conn) (f : Nat) (p : Payload) (w : Query)
    (hw : isWriteQuery w.sql = true)
    (hres : lookupKey reservedKey p = none)
    (hnd : (p.map Prod.fst).Nodup) :
    ∃ res,
      runSession conn (f + 1) [qBegin, qMarker p, w, qCommit] transactionContextClient =
        ([Except.ok (Except.ok EMPTY_RESULT), Except.ok (Except.ok EMPTY_RESULT), res,
          Except.ok (Except.ok EMPTY_RESULT)],
         { tx := some { previousQueries := [qBegin, qMarker p, w, qCommit],
                        readyToExecuteTransaction := false }, releaseCount := 0 },
         [(SqlText.withComment w.sql (jsSpreadMerge w.sql.render p), w.args)]) ∧
      lookupKey reservedKey (sqlCommentToContext
        (SqlText.withComment w.sql (jsSpreadMerge w.sql.render p))) = some (w.sql.render) ∧
      (∀ k, k ≠ reservedKey →
        lookupKey k (sqlCommentToContext
          (SqlText.withComment w.sql (jsSpreadMerge w.sql.render p))) = lookupKey k p) := by
  obtain ⟨res, hrun⟩ := canonicalSession_eq conn f p w hw
  exact ⟨res, hrun, jsSpreadMerge_reserved (SqlText.render w.sql) p hres,
    fun k hk => jsSpreadMerge_preserves (SqlText.render w.sql) p hnd k hk⟩

/-- C9: when the connection call fails with a database-shaped error (string
code, severity and message), `performIO` returns the structured `Postgres`
error carrying code, severity, message, detail, column and hint instead of
throwing; any other failure is rethrown unchanged and never mapped. -/
theorem c9_error_mapping (conn : Conn) (f : Nat) (q : Query) (cu : Bool) (n : Nat) :
    (∀ e : PgError, conn q.sql q.args = ConnOutcome.throwDb e →
      performIo conn (f + 1) q cu { tx := none, releaseCount := n } =
        (Except.ok (Except.error (DriverError.postgres e.code e.severity e.message
          e.detail e.column e.hint)),
         { tx := none, releaseCount := n }, [(q.sql, q.args)])) ∧
    (∀ m : String, conn q.sql q.args = ConnOutcome.throwOther m →
      performIo conn (f + 1) q cu { tx := none, releaseCount := n } =
        (Except.error m, { tx := none, releaseCount := n }, [(q.sql, q.args)])) := by
  constructor
  · intro e h
    simp [performIo, performIoTx, compactPerformIOResult, execQuery, h, wrapIo]
  · intro m h
    simp [performIo, performIoTx, compactPerformIOResult, execQuery, h, wrapIo]

/-- C10: `commit()` and `rollback()` unconditionally release the client and
return a success result, send no statement to the physical connection, and a
second call releases the client again. -/
theorem c10_commit_rollback_frame :
    ∀ cl : Client,
      PgTransaction.commit cl =
        (Except.ok (), { cl with releaseCount := cl.releaseCount + 1 }, ([] : Trace)) ∧
      PgTransaction.rollback cl =
        (Except.ok (), { cl with releaseCount := cl.releaseCount + 1 }, ([] : Trace)) ∧
      (PgTransaction.commit (PgTransaction.commit cl).2.1).2.1.releaseCount =
        cl.releaseCount + 2 := by
  intro cl
  exact ⟨rfl, rfl, rfl⟩

/-- C8, amended: the adapter keeps no closed-session state — releasing the
client has no effect on how a further submission is processed (same result,
same trace, only the release count differs), and a submission on the standard
client is always forwarded to the physical connection, never rejected as a
usage defect. -/
theorem c8_release_not_checked :
    (∀ (conn : Conn) (fuel : Nat) (q : Query) (cu : Bool) (cl : Client),
      performIo conn fuel q cu (releaseClient cl) =
        ((performIo conn fuel q cu cl).1,
         releaseClient (performIo conn fuel q cu cl).2.1,
         (performIo conn fuel q cu cl).2.2)) ∧
    (∀ (conn : Conn) (q : Query) (cu : Bool) (n : Nat),
      (performIo conn 1 q cu { tx := none, releaseCount := n }).2.2 = [(q.sql, q.args)]) := by
  constructor
  · intro conn fuel q cu cl
    rfl
  · intro conn q cu n
    rcases h : conn q.sql q.args with r | e | m <;>
      simp [performIo, performIoTx, compactPerformIOResult, execQuery, h, wrapIo]


/-- The always-succeeding connection never throws a non-database failure. -/
theorem connOk_clean : ∀ t a m, connOk t a ≠ ConnOutcome.throwOther m := by
  intro t a m h
  simp [connOk] at h

/-- Witness for C1's amended theorem at a concrete two-marker log. -/
theorem c1_earliest_marker_witness :
    (∀ t a m, connOk t a ≠ ConnOutcome.throwOther m) ∧
    isWriteQuery qUpdate.sql = true ∧
    [qBegin, qMarker [("k", "1")], qMarker [("k", "2")]].find?
      (fun p => isContextComment p.sql) = some (qMarker [("k", "1")]) ∧
    (performIo connOk 2 qUpdate false
        { tx := some { previousQueries := [qBegin, qMarker [("k", "1")], qMarker [("k", "2")]],
                       readyToExecuteTransaction := false }, releaseCount := 0 }).2.2.getLast? =
      some (SqlText.withComment qUpdate.sql
        (jsSpreadMerge qUpdate.sql.render
          (sqlCommentToContext (qMarker [("k", "1")]).sql)), qUpdate.args) :=
  ⟨connOk_clean, by decide, by decide,
   c1_earliest_marker connOk connOk_clean 0 qUpdate
     { tx := some { previousQueries := [qBegin, qMarker [("k", "1")], qMarker [("k", "2")]],
                    readyToExecuteTransaction := false }, releaseCount := 0 }
     { previousQueries := [qBegin, qMarker [("k", "1")], qMarker [("k", "2")]],
       readyToExecuteTransaction := false }
     (qMarker [("k", "1")]) rfl (by decide) (by decide)⟩

/-- Witness for C2's amended theorem at a concrete payload. -/
theorem c2_context_merge_witness :
    isWriteQuery qUpdate.sql = true ∧
    lookupKey reservedKey [("k", "v")] = none ∧
    ([("k", "v")].map (Prod.fst (α := String) (β := String))).Nodup ∧
    (∃ res,
      runSession connOk 9 [qBegin, qMarker [("k", "v")], qUpdate, qCommit]
          transactionContextClient =
        ([Except.ok (Except.ok EMPTY_RESULT), Except.ok (Except.ok EMPTY_RESULT), res,
          Except.ok (Except.ok EMPTY_RESULT)],
         { tx := some { previousQueries := [qBegin, qMarker [("k", "v")], qUpdate, qCommit],
                        readyToExecuteTransaction := false }, releaseCount := 0 },
         [(SqlText.withComment qUpdate.sql
            (jsSpreadMerge qUpdate.sql.render [("k", "v")]), qUpdate.args)]) ∧
      lookupKey reservedKey (sqlCommentToContext
        (SqlText.withComment qUpdate.sql
          (jsSpreadMerge qUpdate.sql.render [("k", "v")]))) = some (qUpdate.sql.render) ∧
      (∀ k, k ≠ reservedKey →
        lookupKey k (sqlCommentToContext
          (SqlText.withComment qUpdate.sql
            (jsSpreadMerge qUpdate.sql.render [("k", "v")]))) = lookupKey k [("k", "v")])) :=
  ⟨by decide, by decide, by decide,
   c2_context_merge connOk 8 [("k", "v")] qUpdate (by decide) (by decide) (by decide)⟩

/-- Witness for C4 at a concrete canonical session. -/
theorem c4_canonical_shape_witness :
    isWriteQuery qUpdate.sql = true ∧
    ∃ res, runSession connOk 9 [qBegin, qMarker [("k", "v")], qUpdate, qCommit]
        transactionContextClient =
      ([Except.ok (Except.ok EMPTY_RESULT), Except.ok (Except.ok EMPTY_RESULT), res,
        Except.ok (Except.ok EMPTY_RESULT)],
       { tx := some { previousQueries := [qBegin, qMarker [("k", "v")], qUpdate, qCommit],
                      readyToExecuteTransaction := false }, releaseCount := 0 },
       [(SqlText.withComment qUpdate.sql
          (jsSpreadMerge qUpdate.sql.render [("k", "v")]), qUpdate.args)]) :=
  ⟨by decide, c4_canonical_shape connOk 8 [("k", "v")] qUpdate (by decide)⟩

/-- Witness for C5 at the session running `BEGIN` then `SELECT 1`. -/
theorem c5_begin_replayed_before_second_witness :
    isBeginQuery qBegin.sql = true ∧
    isContextComment qSelect.sql = false ∧
    (performIo connOk 2 qBegin false transactionContextClient =
      (Except.ok (Except.ok EMPTY_RESULT),
       { tx := some { previousQueries := [qBegin], readyToExecuteTransaction := false },
         releaseCount := 0 }, []) ∧
    ∃ rest,
      (performIo connOk 2 qSelect false
          { tx := some { previousQueries := [qBegin], readyToExecuteTransaction := false },
            releaseCount := 0 }).2.2 = (qBegin.sql, qBegin.args) :: rest ∧
      (rest = [] ∨ rest = [(qSelect.sql, qSelect.args)]) ∧
      ((∀ m, connOk qBegin.sql qBegin.args ≠ ConnOutcome.throwOther m) →
        rest = [(qSelect.sql, qSelect.args)]) ∧
      (performIo connOk 2 qSelect false
          { tx := some { previousQueries := [qBegin], readyToExecuteTransaction := false },
            releaseCount := 0 }).2.1.tx =
        some { previousQueries := [qBegin, qSelect], readyToExecuteTransaction := true }) :=
  ⟨by decide, by decide,
   c5_begin_replayed_before_second connOk 0 qBegin qSelect (by decide) (by decide)⟩

/-- Witness for C6 on a materialized session submitting `COMMIT`. -/
theorem c6_materialization_monotone_witness :
    (({ tx := some { previousQueries := [qBegin, qSelect], readyToExecuteTransaction := true },
        releaseCount := 0 } : Client).tx =
      some { previousQueries := [qBegin, qSelect], readyToExecuteTransaction := true }) ∧
    (∃ l', (performIo connOk 3 qCommit false
        { tx := some { previousQueries := [qBegin, qSelect], readyToExecuteTransaction := true },
          releaseCount := 0 }).2.1.tx =
      some { previousQueries := l', readyToExecuteTransaction := true }) ∧
    (isBeginQuery qCommit.sql || isCommitQuery qCommit.sql) = true ∧
    (performIo connOk 3 qCommit false
        { tx := some { previousQueries := [qBegin, qSelect], readyToExecuteTransaction := true },
          releaseCount := 0 }).2.2 =
      [(rewrittenText [qBegin, qSelect] qCommit.sql, qCommit.args)] :=
  ⟨rfl,
   c6_materialization_monotone.2.1 connOk 3 qCommit false
     { tx := some { previousQueries := [qBegin, qSelect], readyToExecuteTransaction := true },
       releaseCount := 0 } [qBegin, qSelect] rfl,
   by decide,
   c6_materialization_monotone.2.2 connOk 2 qCommit
     { tx := some { previousQueries := [qBegin, qSelect], readyToExecuteTransaction := true },
       releaseCount := 0 } [qBegin, qSelect] rfl (by decide)⟩

/-- Witness for C7's amended theorem at concrete marker submissions. -/
theorem c7_context_marker_suppressed_witness :
    isContextComment (qMarker [("b", "2")]).sql = true ∧
    ((SqlText.plain "BEGIN", ([] : List String)) ∈
      (performIo connOk 4 (qMarker [("b", "2")]) false
        { tx := some { previousQueries := [qBegin, qMarker [("a", "1")]],
                       readyToExecuteTransaction := false }, releaseCount := 0 }).2.2) ∧
    isContextComment (SqlText.plain "BEGIN") = false ∧
    (performIo connOk 2 (qMarker [("a", "1")]) false transactionContextClient).1 =
      Except.ok (Except.ok EMPTY_RESULT) :=
  ⟨rfl, by decide,
   c7_context_marker_suppressed.1 connOk 4 (qMarker [("b", "2")]) false
     { tx := some { previousQueries := [qBegin, qMarker [("a", "1")]],
                    readyToExecuteTransaction := false }, releaseCount := 0 }
     { previousQueries := [qBegin, qMarker [("a", "1")]],
       readyToExecuteTransaction := false } rfl rfl
     (SqlText.plain "BEGIN", []) (by decide),
   c7_context_marker_suppressed.2 connOk 0 (qMarker [("a", "1")]) transactionContextClient
     { previousQueries := [], readyToExecuteTransaction := false } rfl rfl connOk_clean⟩

/-- Witness for C9 under connections failing both ways. -/
theorem c9_error_mapping_witness :
    (connDbFail pgErrW qSelect.sql qSelect.args = ConnOutcome.throwDb pgErrW ∧
     performIo (connDbFail pgErrW) 1 qSelect false { tx := none, releaseCount := 0 } =
       (Except.ok (Except.error (DriverError.postgres "08006" "ERROR" "connection failure"
         (some "d") none (some "h"))),
        { tx := none, releaseCount := 0 }, [(qSelect.sql, qSelect.args)])) ∧
    (connCrash "boom" qSelect.sql qSelect.args = ConnOutcome.throwOther "boom" ∧
     performIo (connCrash "boom") 1 qSelect false { tx := none, releaseCount := 0 } =
       (Except.error "boom", { tx := none, releaseCount := 0 },
        [(qSelect.sql, qSelect.args)])) :=
  ⟨⟨rfl, (c9_error_mapping (connDbFail pgErrW) 0 qSelect false 0).1 pgErrW rfl⟩,
   ⟨rfl, (c9_error_mapping (connCrash "boom") 0 qSelect false 0).2 "boom" rfl⟩⟩
